import Mathlib

/-!
Verification of the redis-shield rate-limiting module.

This file gives a shallow embedding of the four rate-limiting policies
(token bucket, leaky bucket, fixed window, sliding window), the argument
dispatcher and the store interaction layer, translated from the Rust
sources (`src/bucket.rs`, `src/algorithm/leaky_bucket.rs`,
`src/algorithm/fixed_window.rs`, `src/algorithm/sliding_window.rs`,
`src/command_parser.rs`), and proves properties of the embedding.

Machine integers are modelled as unbounded `Int` together with explicit
64-bit saturation / wrapping operators mirroring the Rust `i64`/`i128`
operations used by the sources.
-/

/-- Smallest `i64` value. -/
def i64Min : Int := -9223372036854775808

/-- Largest `i64` value. -/
def i64Max : Int := 9223372036854775807

/-- Clamp an integer into the `i64` range (Rust saturating semantics). -/
def satI (x : Int) : Int := max i64Min (min x i64Max)

/-- Rust `i64::saturating_add`. -/
def satAdd (a b : Int) : Int := satI (a + b)

/-- Rust `i64::saturating_sub`. -/
def satSub (a b : Int) : Int := satI (a - b)

/-- Rust `i64::saturating_mul`. -/
def satMul (a b : Int) : Int := satI (a * b)

/-- Rust `i64::checked_mul`. -/
def checkedMul (a b : Int) : Option Int :=
  if i64Min ≤ a * b ∧ a * b ≤ i64Max then some (a * b) else none

/-- Rust `as i64` two's-complement wrap of a wider integer. -/
def wrap64 (x : Int) : Int :=
  (x + 9223372036854775808) % 18446744073709551616 - 9223372036854775808

/-- Rust `i64::clamp(lo, hi)` (requires `lo ≤ hi`, which all call sites satisfy). -/
def clampI (x lo hi : Int) : Int := max lo (min x hi)

theorem satI_eq {x : Int} (h1 : i64Min ≤ x) (h2 : x ≤ i64Max) : satI x = x := by
  simp only [satI, i64Min, i64Max] at *
  omega

theorem satAdd_eq {a b : Int} (h1 : i64Min ≤ a + b) (h2 : a + b ≤ i64Max) :
    satAdd a b = a + b := satI_eq h1 h2

theorem satSub_eq {a b : Int} (h1 : i64Min ≤ a - b) (h2 : a - b ≤ i64Max) :
    satSub a b = a - b := satI_eq h1 h2

theorem wrap64_eq {x : Int} (h1 : i64Min ≤ x) (h2 : x ≤ i64Max) : wrap64 x = x := by
  simp only [i64Min, i64Max] at h1 h2
  have hmod : (x + 9223372036854775808) % 18446744073709551616
      = x + 9223372036854775808 :=
    Int.emod_eq_of_lt (by omega) (by omega)
  simp only [wrap64, hmod]
  omega

theorem checkedMul_eq {a b : Int} (h1 : i64Min ≤ a * b) (h2 : a * b ≤ i64Max) :
    checkedMul a b = some (a * b) := by
  simp only [checkedMul, if_pos (And.intro h1 h2)]

/-! ### Decimal digits and integer formatting / parsing

Models `itoa`-style formatting of an `i64` and Rust's `str::parse::<i64>`.
-/

/-- The ASCII character of a decimal digit. -/
def digitChar (d : Nat) : Char := Char.ofNat (48 + d)

/-- Numeric value of an ASCII decimal digit, `none` for non-digits. -/
def digitVal (c : Char) : Option Nat :=
  if '0' ≤ c ∧ c ≤ '9' then some (c.toNat - 48) else none

/-- Worker producing the decimal digits of `n` in front of `acc`; the
fuel argument makes the recursion structural (any fuel above `n` is
enough, since `n / 10 < n` for positive `n`). -/
def natToDigitsAux : Nat → Nat → List Char → List Char
  | 0, _, acc => acc
  | fuel + 1, n, acc =>
    let acc2 := digitChar (n % 10) :: acc
    if n / 10 = 0 then acc2 else natToDigitsAux fuel (n / 10) acc2

/-- Decimal digit string of a natural number (most significant first). -/
def natToDigits (n : Nat) : List Char := natToDigitsAux (n + 1) n []

/-- Decimal character list of an integer, as produced by `itoa` for an `i64`. -/
def intToDigits (v : Int) : List Char :=
  if v < 0 then '-' :: natToDigits (-v).toNat else natToDigits v.toNat

/-- Decimal string of an integer, as produced by `itoa` for an `i64`. -/
def intToString (v : Int) : String := String.mk (intToDigits v)

/-- Worker for parsing a run of decimal digits (accumulator style). -/
def parseDigitsGo (acc : Nat) : List Char → Option Nat
  | [] => some acc
  | c :: cs =>
    match digitVal c with
    | some d => parseDigitsGo (acc * 10 + d) cs
    | none => none

/-- Parse a non-empty run of decimal digits. -/
def parseDigits : List Char → Option Nat
  | [] => none
  | c :: cs => parseDigitsGo 0 (c :: cs)

/-- Model of Rust `str::parse::<i64>` on a character list: optional sign,
one or more digits, result within the `i64` range. -/
def parseI64Chars (s : List Char) : Option Int :=
  match s with
  | [] => none
  | c :: cs =>
    if c = '-' then
      (parseDigits cs).bind fun n =>
        if (n : Int) ≤ 9223372036854775808 then some (-(n : Int)) else none
    else if c = '+' then
      (parseDigits cs).bind fun n =>
        if (n : Int) ≤ i64Max then some (n : Int) else none
    else
      (parseDigits (c :: cs)).bind fun n =>
        if (n : Int) ≤ i64Max then some (n : Int) else none

/-- Model of Rust `str::parse::<i64>`. -/
def parseI64 (s : String) : Option Int := parseI64Chars s.data

/-- Split a character list at its first `':'`, if any. -/
def splitAtColon : List Char → Option (List Char × List Char)
  | [] => none
  | c :: rest =>
    if c = ':' then some ([], rest)
    else (splitAtColon rest).map fun p => (c :: p.1, p.2)

/-! ### The store model

One key of the external store: an optional string payload and an optional
TTL in milliseconds. `PTTL` returns `-2` when the key is absent and `-1`
when it has no expiry, matching the Redis contract the sources rely on.
-/

/-- State of the single storage key used by a policy. -/
structure Store where
  value : Option String
  ttl : Option Int
deriving DecidableEq, Repr

/-- Reply values of the store calls the sources make. -/
inductive RVal where
  | int (i : Int)
  | str (s : String)
  | null
deriving DecidableEq, Repr

/-- `PTTL key` reply. -/
def pttlVal (st : Store) : Int :=
  match st.value with
  | none => -2
  | some _ =>
    match st.ttl with
    | none => -1
    | some t => t

/-- Run `PTTL key` (read-only). -/
def runPttl (st : Store) : RVal × Store := (RVal.int (pttlVal st), st)

/-- Run `GET key` (read-only); a present payload is returned as a string reply. -/
def runGet (st : Store) : RVal × Store :=
  (match st.value with
   | some s => RVal.str s
   | none => RVal.null, st)

/-- Run `PSETEX key ttl value`: set the payload with a fresh TTL
(the previous key state is overwritten entirely). -/
def runPsetex (_st : Store) (ttl : Int) (v : String) : RVal × Store :=
  (RVal.null, { value := some v, ttl := some ttl })

/-- Run `SET key value KEEPTTL`: set the payload, keep the current expiry. -/
def runSetKeepttl (st : Store) (v : String) : RVal × Store :=
  (RVal.null, { st with value := some v })

/-- The error outcomes of the module (fixed `RedisError` strings and
`RedisError::WrongArity`). -/
inductive Err where
  | wrongArity
  | capacityPositive
  | periodPositive
  | periodTooLarge
  | tokensPositive
  | burstPositive
  | algorithmValueMissing
  | unknownAlgorithm
  | invalidTokenCount
  | invalidLevel
  | invalidCounter
  | timeUnavailable
deriving DecidableEq, Repr

/-! ### Token bucket (`src/bucket.rs`) -/

/-- In-memory token bucket state (`Bucket` without the context/key handles);
`period` is in milliseconds. -/
structure Bucket where
  capacity : Int
  period : Int
  tokens : Int
deriving DecidableEq, Repr

/-- `Bucket::fetch_tokens`: read PTTL and the stored integer, refill
proportionally to the elapsed share of the period, cap at capacity. -/
def Bucket.fetch_tokens (capacity period : Int) (st : Store) :
    Except Err (Int × Store) :=
  let (pv, st1) := runPttl st
  let current_ttl :=
    match pv with
    | RVal.int ttl => clampI ttl 0 period
    | _ => 0
  let elapsed := period - current_ttl
  let refilled_tokens := wrap64 (Int.tdiv (elapsed * capacity) period)
  let (gv, st2) := runGet st1
  match gv with
  | RVal.str s =>
    match parseI64 s with
    | some v => Except.ok (min (satAdd (max v 0) refilled_tokens) capacity, st2)
    | none => Except.error Err.invalidTokenCount
  | _ => Except.ok (min (satAdd 0 refilled_tokens) capacity, st2)

/-- `Bucket::new`: validate the arguments and load state from the store. -/
def Bucket.new (capacity period_sec : Int) (st : Store) :
    Except Err (Bucket × Store) :=
  if capacity ≤ 0 then Except.error Err.capacityPositive
  else if period_sec ≤ 0 then Except.error Err.periodPositive
  else
    match checkedMul period_sec 1000 with
    | none => Except.error Err.periodTooLarge
    | some period_ms =>
      match Bucket.fetch_tokens capacity period_ms st with
      | Except.error e => Except.error e
      | Except.ok (t, st1) => Except.ok (⟨capacity, period_ms, t⟩, st1)

/-- `Bucket::pour`: deny with `-1` when not enough tokens remain, otherwise
subtract and persist the new balance with a fresh TTL of one period. -/
def Bucket.pour (b : Bucket) (tokens : Int) (st : Store) :
    Except Err (Int × Store) :=
  if tokens ≤ 0 then Except.error Err.tokensPositive
  else if tokens > b.tokens then Except.ok (-1, st)
  else
    let t := b.tokens - tokens
    let (_, st1) := runPsetex st b.period (intToString t)
    Except.ok (t, st1)

/-! ### Leaky bucket (`src/algorithm/leaky_bucket.rs`) -/

/-- In-memory leaky bucket state; `period` is in milliseconds. -/
structure LeakyBucket where
  capacity : Int
  period : Int
  level : Int
deriving DecidableEq, Repr

/-- `LeakyBucket::fetch_level`: read PTTL and the stored integer, subtract the
amount leaked over the elapsed time, cap at capacity. -/
def LeakyBucket.fetch_level (capacity period : Int) (st : Store) :
    Except Err (Int × Store) :=
  let (pv, st1) := runPttl st
  let current_ttl :=
    match pv with
    | RVal.int ttl => clampI ttl 0 period
    | _ => 0
  let elapsed := period - current_ttl
  let leaked := wrap64 (Int.tdiv (elapsed * capacity) period)
  let (gv, st2) := runGet st1
  match gv with
  | RVal.str s =>
    match parseI64 s with
    | some v =>
      let stored_level := max v 0
      Except.ok (min (satSub stored_level leaked) capacity, st2)
    | none => Except.error Err.invalidLevel
  | _ => Except.ok (min (satSub 0 leaked) capacity, st2)

/-- `LeakyBucket::new`. -/
def LeakyBucket.new (capacity period_sec : Int) (st : Store) :
    Except Err (LeakyBucket × Store) :=
  if capacity ≤ 0 then Except.error Err.capacityPositive
  else if period_sec ≤ 0 then Except.error Err.periodPositive
  else
    match checkedMul period_sec 1000 with
    | none => Except.error Err.periodTooLarge
    | some period_ms =>
      match LeakyBucket.fetch_level capacity period_ms st with
      | Except.error e => Except.error e
      | Except.ok (l, st1) => Except.ok (⟨capacity, period_ms, l⟩, st1)

/-- `LeakyBucket::add`: deny with `-1` when the burst would overflow,
otherwise add, persist with a fresh TTL and return the headroom. -/
def LeakyBucket.add (b : LeakyBucket) (burst : Int) (st : Store) :
    Except Err (Int × Store) :=
  if burst ≤ 0 then Except.error Err.burstPositive
  else if satAdd b.level burst > b.capacity then Except.ok (-1, st)
  else
    let level := min (satAdd b.level burst) b.capacity
    let (_, st1) := runPsetex st b.period (intToString level)
    Except.ok (b.capacity - level, st1)

/-! ### Fixed window (`src/algorithm/fixed_window.rs`) -/

/-- In-memory fixed window state; `period` is in milliseconds. -/
structure FixedWindow where
  capacity : Int
  period : Int
  count : Int
  has_active_window : Bool
deriving DecidableEq, Repr

/-- `FixedWindow::fetch_count`: a window is active only when PTTL exceeds
1 ms; a fresh window starts at count 0 without reading the payload. -/
def FixedWindow.fetch_count (_capacity _period : Int) (st : Store) :
    Except Err ((Int × Bool) × Store) :=
  let (pv, st1) := runPttl st
  let active :=
    match pv with
    | RVal.int ttl => if ttl > 1 then true else false
    | _ => false
  if active then
    let (gv, st2) := runGet st1
    match gv with
    | RVal.str s =>
      match parseI64 s with
      | some v => Except.ok ((max v 0, true), st2)
      | none => Except.error Err.invalidCounter
    | _ => Except.ok ((0, true), st2)
  else Except.ok ((0, false), st1)

/-- `FixedWindow::new`. -/
def FixedWindow.new (capacity period_sec : Int) (st : Store) :
    Except Err (FixedWindow × Store) :=
  if capacity ≤ 0 then Except.error Err.capacityPositive
  else if period_sec ≤ 0 then Except.error Err.periodPositive
  else
    match checkedMul period_sec 1000 with
    | none => Except.error Err.periodTooLarge
    | some period_ms =>
      match FixedWindow.fetch_count capacity period_ms st with
      | Except.error e => Except.error e
      | Except.ok ((c, act), st1) => Except.ok (⟨capacity, period_ms, c, act⟩, st1)

/-- `FixedWindow::persist_count`: `SET … KEEPTTL` inside an active window,
`PSETEX` with a full period when opening a new window. -/
def FixedWindow.persist_count (w : FixedWindow) (st : Store) :
    FixedWindow × Store :=
  if w.has_active_window then
    let (_, st1) := runSetKeepttl st (intToString w.count)
    (w, st1)
  else
    let (_, st1) := runPsetex st w.period (intToString w.count)
    ({ w with has_active_window := true }, st1)

/-- `FixedWindow::consume`. -/
def FixedWindow.consume (w : FixedWindow) (tokens : Int) (st : Store) :
    Except Err (Int × Store) :=
  if tokens ≤ 0 then Except.error Err.tokensPositive
  else if satAdd w.count tokens > w.capacity then Except.ok (-1, st)
  else
    let w1 := { w with count := min (satAdd w.count tokens) w.capacity }
    let (w2, st1) := FixedWindow.persist_count w1 st
    Except.ok (w2.capacity - w2.count, st1)

/-! ### Sliding window (`src/algorithm/sliding_window.rs`) -/

/-- In-memory sliding window state; `period` is in milliseconds. -/
structure SlidingWindow where
  capacity : Int
  period : Int
  current_start : Int
  current_count : Int
  previous_count : Int
deriving DecidableEq, Repr

/-- `SlidingWindow::decode_state`: split the payload into at most three
parts at `':'` (the third keeps any remaining colons, as with Rust's
`splitn(3, ':')`) and parse each part as an `i64`. -/
def SlidingWindow.decode_state (payload : String) : Option (Int × Int × Int) :=
  match splitAtColon payload.data with
  | none => none
  | some (p1, r1) =>
    match splitAtColon r1 with
    | none => none
    | some (p2, p3) =>
      match parseI64Chars p1 with
      | none => none
      | some start =>
        match parseI64Chars p2 with
        | none => none
        | some current =>
          match parseI64Chars p3 with
          | none => none
          | some previous => some (start, current, previous)

/-- `SlidingWindow::encode_state`: `"start:cur:prev"` with `itoa` digits. -/
def SlidingWindow.encode_state (s : SlidingWindow) : String :=
  String.mk (intToDigits s.current_start ++ ':' ::
    (intToDigits s.current_count ++ ':' :: intToDigits s.previous_count))

/-- `SlidingWindow::align_to_now`: normalize the window to cover `now_ms`
and return the aligned elapsed time. -/
def SlidingWindow.align_to_now (s : SlidingWindow) (now_ms : Int) :
    SlidingWindow × Int :=
  let s :=
    if s.current_start > now_ms ∨ s.current_start < 0 then
      { s with current_start := now_ms }
    else s
  let elapsed := satSub now_ms s.current_start
  if elapsed ≥ s.period then
    let windows_passed := Int.tdiv elapsed s.period
    let s :=
      if windows_passed = 1 then
        { s with previous_count := s.current_count, current_count := 0 }
      else
        { s with previous_count := 0, current_count := 0 }
    let advance := (checkedMul windows_passed s.period).getD s.period
    let cs0 := satAdd s.current_start advance
    let cs1 := if cs0 > now_ms then now_ms else cs0
    ({ s with current_start := cs1 }, satSub now_ms cs1)
  else (s, elapsed)

/-- `SlidingWindow::effective_usage`: current count plus the previous count
weighted by the remaining share of the window, capped at capacity. -/
def SlidingWindow.effective_usage (s : SlidingWindow) (elapsed : Int) : Int :=
  let remaining := satSub s.period elapsed
  let weighted_previous :=
    if s.period = 0 then 0
    else wrap64 (Int.tdiv (s.previous_count * remaining) s.period)
  min (satAdd s.current_count weighted_previous) s.capacity

/-- `SlidingWindow::persist_state`: `PSETEX` with TTL `2·period`. -/
def SlidingWindow.persist_state (s : SlidingWindow) (st : Store) : Store :=
  let ttl := max (satMul s.period 2) s.period
  (runPsetex st ttl (SlidingWindow.encode_state s)).2

/-- `SlidingWindow::apply_state`: decode and clamp the stored triple, or
silently reset to a fresh window, then align to `now_ms`. -/
def SlidingWindow.apply_state (s : SlidingWindow) (payload : String)
    (now_ms : Int) : SlidingWindow :=
  let s :=
    match SlidingWindow.decode_state payload with
    | some (start, current, previous) =>
      { s with
        current_start := min (max start 0) now_ms
        current_count := min (max current 0) s.capacity
        previous_count := min (max previous 0) s.capacity }
    | none =>
      { s with current_start := now_ms, current_count := 0, previous_count := 0 }
  (SlidingWindow.align_to_now s now_ms).1

/-- `SlidingWindow::load_state` (read-only). -/
def SlidingWindow.load_state (s : SlidingWindow) (now_ms : Int) (st : Store) :
    SlidingWindow × Store :=
  let (gv, st1) := runGet st
  match gv with
  | RVal.str payload => (SlidingWindow.apply_state s payload now_ms, st1)
  | _ => (s, st1)

/-- `SlidingWindow::new`; `now_ms` stands for the value obtained from the
host's `TIME` service. -/
def SlidingWindow.new (capacity period_sec now_ms : Int) (st : Store) :
    Except Err (SlidingWindow × Store) :=
  if capacity ≤ 0 then Except.error Err.capacityPositive
  else if period_sec ≤ 0 then Except.error Err.periodPositive
  else
    match checkedMul period_sec 1000 with
    | none => Except.error Err.periodTooLarge
    | some period_ms =>
      Except.ok (SlidingWindow.load_state
        ⟨capacity, period_ms, now_ms, 0, 0⟩ now_ms st)

/-- `SlidingWindow::consume`; `now_ms` stands for the `TIME` reply made
during the call. -/
def SlidingWindow.consume (s : SlidingWindow) (tokens now_ms : Int)
    (st : Store) : Except Err (Int × Store) :=
  if tokens ≤ 0 then Except.error Err.tokensPositive
  else
    let (s1, elapsed) := SlidingWindow.align_to_now s now_ms
    let usage := SlidingWindow.effective_usage s1 elapsed
    if satAdd usage tokens > s1.capacity then Except.ok (-1, st)
    else
      let s2 := { s1 with
        current_count := min (satAdd s1.current_count tokens) s1.capacity }
      let st1 := SlidingWindow.persist_state s2 st
      Except.ok (max (s2.capacity - usage - tokens) 0, st1)

/-! ### Policy dispatch (`src/traffic_policy.rs`, `src/lib.rs`) -/

/-- `PolicyConfig`: the tagged policy selection with its parameters. -/
inductive PolicyConfig where
  | tokenBucket (capacity period : Int)
  | leakyBucket (capacity period : Int)
  | fixedWindow (capacity period : Int)
  | slidingWindow (capacity period : Int)
deriving DecidableEq, Repr

/-- The constructed executor state of any policy. -/
inductive PolState where
  | tb (b : Bucket)
  | lb (b : LeakyBucket)
  | fw (w : FixedWindow)
  | sw (s : SlidingWindow)
deriving DecidableEq, Repr

/-- `create_executor`: construct the selected policy's executor from the
store (`now_ms` is used only by the sliding window). -/
def construct (cfg : PolicyConfig) (now_ms : Int) (st : Store) :
    Except Err (PolState × Store) :=
  match cfg with
  | PolicyConfig.tokenBucket c p =>
    match Bucket.new c p st with
    | Except.error e => Except.error e
    | Except.ok (b, st1) => Except.ok (PolState.tb b, st1)
  | PolicyConfig.leakyBucket c p =>
    match LeakyBucket.new c p st with
    | Except.error e => Except.error e
    | Except.ok (b, st1) => Except.ok (PolState.lb b, st1)
  | PolicyConfig.fixedWindow c p =>
    match FixedWindow.new c p st with
    | Except.error e => Except.error e
    | Except.ok (w, st1) => Except.ok (PolState.fw w, st1)
  | PolicyConfig.slidingWindow c p =>
    match SlidingWindow.new c p now_ms st with
    | Except.error e => Except.error e
    | Except.ok (s, st1) => Except.ok (PolState.sw s, st1)

/-- `TrafficPolicyExecutor::execute` of the constructed state. -/
def executeState (ps : PolState) (units now_ms : Int) (st : Store) :
    Except Err (Int × Store) :=
  match ps with
  | PolState.tb b => Bucket.pour b units st
  | PolState.lb b => LeakyBucket.add b units st
  | PolState.fw w => FixedWindow.consume w units st
  | PolState.sw s => SlidingWindow.consume s units now_ms st

/-- The full command path after argument parsing: construct the executor,
then execute. Returns the reply together with the resulting store state
(unchanged when an error occurs before any write). -/
def absorb (cfg : PolicyConfig) (units now1 now2 : Int) (st : Store) :
    Except Err Int × Store :=
  match construct cfg now1 st with
  | Except.error e => (Except.error e, st)
  | Except.ok (ps, st1) =>
    match executeState ps units now2 st1 with
    | Except.error e => (Except.error e, st1)
    | Except.ok (r, st2) => (Except.ok r, st2)

deriving instance DecidableEq for Except

/-! ### Argument dispatcher (`src/command_parser.rs`) -/

/-- Parsed representation of a `SHIELD.absorb` invocation. -/
structure CommandInvocation where
  key : String
  cfg : PolicyConfig
  tokens : Int
deriving DecidableEq, Repr

/-- ASCII lower-casing of one character. -/
def asciiLower (c : Char) : Char :=
  if 'A' ≤ c ∧ c ≤ 'Z' then Char.ofNat (c.toNat + 32) else c

/-- Rust `str::eq_ignore_ascii_case`. -/
def eq_ignore_ascii_case (a b : String) : Bool :=
  a.data.map asciiLower = b.data.map asciiLower

/-- `parse_positive_integer`: parse as `i64` and require a positive value. -/
def parse_positive_integer (value : String) (err : Err) : Except Err Int :=
  match parseI64 value with
  | some arg => if arg > 0 then Except.ok arg else Except.error err
  | none => Except.error err

/-- Model of the argument-get closure: out-of-range access is a
wrong-arity error. -/
def getArg (args : List String) (i : Nat) : Except Err String :=
  match args.get? i with
  | some s => Except.ok s
  | none => Except.error Err.wrongArity

/-- `parse_command_args` / `parse_command_args_inner`: validate arity,
decode the optional `units` and `ALGORITHM` arguments, then the numeric
arguments, and build the policy configuration. -/
def parse_command_args (args : List String) : Except Err CommandInvocation :=
  let len := args.length
  if ¬ (4 ≤ len ∧ len ≤ 7) then Except.error Err.wrongArity
  else
    let step : Except Err (String × Int) :=
      match len with
      | 4 => Except.ok ("token_bucket", 1)
      | 5 =>
        match getArg args 4 with
        | Except.error e => Except.error e
        | Except.ok candidate =>
          if eq_ignore_ascii_case candidate "ALGORITHM" then
            Except.error Err.algorithmValueMissing
          else
            match parse_positive_integer candidate Err.tokensPositive with
            | Except.error e => Except.error e
            | Except.ok t => Except.ok ("token_bucket", t)
      | 6 =>
        match getArg args 4 with
        | Except.error e => Except.error e
        | Except.ok candidate =>
          if eq_ignore_ascii_case candidate "ALGORITHM" then
            match getArg args 5 with
            | Except.error _ => Except.error Err.algorithmValueMissing
            | Except.ok algorithm => Except.ok (algorithm, 1)
          else
            match getArg args 5 with
            | Except.error e => Except.error e
            | Except.ok next =>
              if eq_ignore_ascii_case next "ALGORITHM" then
                Except.error Err.algorithmValueMissing
              else Except.error Err.wrongArity
      | 7 =>
        match getArg args 5 with
        | Except.error e => Except.error e
        | Except.ok flag =>
          if ¬ eq_ignore_ascii_case flag "ALGORITHM" then
            Except.error Err.wrongArity
          else
            match getArg args 6 with
            | Except.error _ => Except.error Err.algorithmValueMissing
            | Except.ok algorithm =>
              match getArg args 4 with
              | Except.error e => Except.error e
              | Except.ok tokens_str =>
                match parse_positive_integer tokens_str Err.tokensPositive with
                | Except.error e => Except.error e
                | Except.ok t => Except.ok (algorithm, t)
      | _ => Except.error Err.wrongArity
    match step with
    | Except.error e => Except.error e
    | Except.ok (algorithm, tokens) =>
      match getArg args 2 with
      | Except.error e => Except.error e
      | Except.ok capStr =>
        match parse_positive_integer capStr Err.capacityPositive with
        | Except.error e => Except.error e
        | Except.ok capacity =>
          match getArg args 3 with
          | Except.error e => Except.error e
          | Except.ok perStr =>
            match parse_positive_integer perStr Err.periodPositive with
            | Except.error e => Except.error e
            | Except.ok period =>
              let cfgO : Option PolicyConfig :=
                if algorithm = "token_bucket" then
                  some (PolicyConfig.tokenBucket capacity period)
                else if algorithm = "leaky_bucket" then
                  some (PolicyConfig.leakyBucket capacity period)
                else if algorithm = "fixed_window" then
                  some (PolicyConfig.fixedWindow capacity period)
                else if algorithm = "sliding_window" then
                  some (PolicyConfig.slidingWindow capacity period)
                else none
              match cfgO with
              | none => Except.error Err.unknownAlgorithm
              | some cfg =>
                match getArg args 1 with
                | Except.error e => Except.error e
                | Except.ok key => Except.ok ⟨key, cfg, tokens⟩

/-! ### Store-frame lemmas: constructors only read, denials never write -/

theorem fetch_tokens_store {c p : Int} {st : Store} {out} :
    Bucket.fetch_tokens c p st = Except.ok out → out.2 = st := by
  unfold Bucket.fetch_tokens runPttl runGet
  intro h
  cases hv : st.value <;> simp only [hv] at h
  · simp only [Except.ok.injEq] at h
    rw [← h]
  · split at h
    · simp only [Except.ok.injEq] at h
      rw [← h]
    · exact absurd h (by simp)

theorem fetch_level_store {c p : Int} {st : Store} {out} :
    LeakyBucket.fetch_level c p st = Except.ok out → out.2 = st := by
  unfold LeakyBucket.fetch_level runPttl runGet
  intro h
  cases hv : st.value <;> simp only [hv] at h
  · simp only [Except.ok.injEq] at h
    rw [← h]
  · split at h
    · simp only [Except.ok.injEq] at h
      rw [← h]
    · exact absurd h (by simp)

theorem fetch_count_store {c p : Int} {st : Store} {out} :
    FixedWindow.fetch_count c p st = Except.ok out → out.2 = st := by
  unfold FixedWindow.fetch_count runPttl runGet pttlVal
  intro h
  cases hv : st.value <;> simp only [hv] at h
  · norm_num at h
    rw [← h]
  · cases ht : st.ttl <;> simp only [ht] at h
    · norm_num at h
      rw [← h]
    · split at h
      · rw [if_pos rfl] at h
        split at h
        · simp only [Except.ok.injEq] at h
          rw [← h]
        · exact absurd h (by simp)
      · rw [if_neg (by simp)] at h
        simp only [Except.ok.injEq] at h
        rw [← h]

theorem load_state_store (s : SlidingWindow) (now : Int) (st : Store) :
    (SlidingWindow.load_state s now st).2 = st := by
  unfold SlidingWindow.load_state runGet
  cases hv : st.value <;> simp [hv]

theorem bucket_new_store {c p : Int} {st : Store} {out} :
    Bucket.new c p st = Except.ok out → out.2 = st := by
  unfold Bucket.new
  intro h
  split at h
  · exact absurd h (by simp)
  split at h
  · exact absurd h (by simp)
  cases hm : checkedMul p 1000 with
  | none =>
    simp only [hm] at h
    exact absurd h (by simp)
  | some pm =>
    simp only [hm] at h
    rcases hf : Bucket.fetch_tokens c pm st with e | ⟨t, st1⟩
    · simp only [hf] at h
      exact absurd h (by simp)
    · simp only [hf] at h
      simp only [Except.ok.injEq] at h
      rw [← h]
      exact fetch_tokens_store hf

theorem leaky_new_store {c p : Int} {st : Store} {out} :
    LeakyBucket.new c p st = Except.ok out → out.2 = st := by
  unfold LeakyBucket.new
  intro h
  split at h
  · exact absurd h (by simp)
  split at h
  · exact absurd h (by simp)
  cases hm : checkedMul p 1000 with
  | none =>
    simp only [hm] at h
    exact absurd h (by simp)
  | some pm =>
    simp only [hm] at h
    rcases hf : LeakyBucket.fetch_level c pm st with e | ⟨l, st1⟩
    · simp only [hf] at h
      exact absurd h (by simp)
    · simp only [hf] at h
      simp only [Except.ok.injEq] at h
      rw [← h]
      exact fetch_level_store hf

theorem fixed_new_store {c p : Int} {st : Store} {out} :
    FixedWindow.new c p st = Except.ok out → out.2 = st := by
  unfold FixedWindow.new
  intro h
  split at h
  · exact absurd h (by simp)
  split at h
  · exact absurd h (by simp)
  cases hm : checkedMul p 1000 with
  | none =>
    simp only [hm] at h
    exact absurd h (by simp)
  | some pm =>
    simp only [hm] at h
    rcases hf : FixedWindow.fetch_count c pm st with e | ⟨⟨cnt, act⟩, st1⟩
    · simp only [hf] at h
      exact absurd h (by simp)
    · simp only [hf] at h
      simp only [Except.ok.injEq] at h
      rw [← h]
      exact fetch_count_store hf

theorem sliding_new_store {c p now : Int} {st : Store} {out} :
    SlidingWindow.new c p now st = Except.ok out → out.2 = st := by
  unfold SlidingWindow.new
  intro h
  split at h
  · exact absurd h (by simp)
  split at h
  · exact absurd h (by simp)
  cases hm : checkedMul p 1000 with
  | none =>
    simp only [hm] at h
    exact absurd h (by simp)
  | some pm =>
    simp only [hm] at h
    simp only [Except.ok.injEq] at h
    rw [← h]
    exact load_state_store _ _ _

theorem construct_store {cfg : PolicyConfig} {now : Int} {st : Store} {out} :
    construct cfg now st = Except.ok out → out.2 = st := by
  intro h
  cases cfg <;> simp only [construct] at h
  case tokenBucket c p =>
    rcases hn : Bucket.new c p st with e | ⟨b, st1⟩
    · simp only [hn] at h
      exact absurd h (by simp)
    · simp only [hn, Except.ok.injEq] at h
      rw [← h]
      exact bucket_new_store hn
  case leakyBucket c p =>
    rcases hn : LeakyBucket.new c p st with e | ⟨b, st1⟩
    · simp only [hn] at h
      exact absurd h (by simp)
    · simp only [hn, Except.ok.injEq] at h
      rw [← h]
      exact leaky_new_store hn
  case fixedWindow c p =>
    rcases hn : FixedWindow.new c p st with e | ⟨w, st1⟩
    · simp only [hn] at h
      exact absurd h (by simp)
    · simp only [hn, Except.ok.injEq] at h
      rw [← h]
      exact fixed_new_store hn
  case slidingWindow c p =>
    rcases hn : SlidingWindow.new c p now st with e | ⟨s, st1⟩
    · simp only [hn] at h
      exact absurd h (by simp)
    · simp only [hn, Except.ok.injEq] at h
      rw [← h]
      exact sliding_new_store hn

theorem pour_denial {b : Bucket} {u : Int} {st st' : Store}
    (h : Bucket.pour b u st = Except.ok (-1, st')) : st' = st := by
  unfold Bucket.pour at h
  split at h
  · exact absurd h (by simp)
  split at h
  · simp only [Except.ok.injEq, Prod.mk.injEq] at h
    exact h.2.symm
  · simp only [runPsetex, Except.ok.injEq, Prod.mk.injEq] at h
    omega

theorem add_denial {b : LeakyBucket} {u : Int} {st st' : Store}
    (h : LeakyBucket.add b u st = Except.ok (-1, st')) : st' = st := by
  unfold LeakyBucket.add at h
  split at h
  · exact absurd h (by simp)
  split at h
  · simp only [Except.ok.injEq, Prod.mk.injEq] at h
    exact h.2.symm
  · simp only [runPsetex, Except.ok.injEq, Prod.mk.injEq] at h
    have hmin := min_le_right (satAdd b.level u) b.capacity
    omega

theorem persist_count_fields (w : FixedWindow) (st : Store) :
    (FixedWindow.persist_count w st).1.capacity = w.capacity ∧
      (FixedWindow.persist_count w st).1.count = w.count := by
  unfold FixedWindow.persist_count runSetKeepttl runPsetex
  split <;> exact ⟨rfl, rfl⟩

theorem fw_consume_denial {w : FixedWindow} {u : Int} {st st' : Store}
    (h : FixedWindow.consume w u st = Except.ok (-1, st')) : st' = st := by
  unfold FixedWindow.consume at h
  split at h
  · exact absurd h (by simp)
  split at h
  · simp only [Except.ok.injEq, Prod.mk.injEq] at h
    exact h.2.symm
  · rcases hp : FixedWindow.persist_count
        { w with count := min (satAdd w.count u) w.capacity } st with ⟨w2, st1⟩
    simp only [hp] at h
    simp only [Except.ok.injEq, Prod.mk.injEq] at h
    have hf := persist_count_fields
      { w with count := min (satAdd w.count u) w.capacity } st
    rw [hp] at hf
    have hmin := min_le_right (satAdd w.count u) w.capacity
    simp only at hf
    omega

theorem sw_consume_denial {s : SlidingWindow} {u now : Int} {st st' : Store}
    (h : SlidingWindow.consume s u now st = Except.ok (-1, st')) : st' = st := by
  unfold SlidingWindow.consume at h
  split at h
  · exact absurd h (by simp)
  rcases hA : SlidingWindow.align_to_now s now with ⟨s1, elapsed⟩
  simp only [hA] at h
  split at h
  · simp only [Except.ok.injEq, Prod.mk.injEq] at h
    exact h.2.symm
  · simp only [Except.ok.injEq, Prod.mk.injEq] at h
    have hmax := le_max_right
      (s1.capacity - SlidingWindow.effective_usage s1 elapsed - u) (0 : Int)
    omega

theorem execute_denial {ps : PolState} {u now : Int} {st st' : Store}
    (h : executeState ps u now st = Except.ok (-1, st')) : st' = st := by
  cases ps <;> simp only [executeState] at h
  case tb b => exact pour_denial h
  case lb b => exact add_denial h
  case fw w => exact fw_consume_denial h
  case sw s => exact sw_consume_denial h

/-- C2: across all four policies the stored key is written only by an
accepted execute: constructing an executor is read-only (an `ok` result
carries the store unchanged), and a full `absorb` call that is denied with
`-1` leaves the store exactly as it was before the call. -/
theorem C2_store_untouched_without_acceptance (cfg : PolicyConfig)
    (units now1 now2 : Int) (st : Store) :
    (∀ out, construct cfg now1 st = Except.ok out → out.2 = st) ∧
    ((absorb cfg units now1 now2 st).1 = Except.ok (-1) →
      (absorb cfg units now1 now2 st).2 = st) := by
  constructor
  · intro out h
    exact construct_store h
  · intro h
    unfold absorb at h ⊢
    rcases hc : construct cfg now1 st with e | ⟨ps, st1⟩
    · simp only [hc] at h
      exact absurd h (by simp)
    simp only [hc] at h ⊢
    rcases he : executeState ps units now2 st1 with e | ⟨r, st2⟩
    · simp only [he] at h
      exact absurd h (by simp)
    simp only [he] at h ⊢
    simp only [Except.ok.injEq] at h
    subst h
    have h1 : st1 = st := construct_store hc
    subst h1
    exact execute_denial he

/-- Witness for C2: a concrete denied token-bucket call (capacity 1,
asking for 2 units) leaves the empty store unchanged. -/
theorem C2_store_untouched_witness :
    (absorb (PolicyConfig.tokenBucket 1 1) 2 0 0 ⟨none, none⟩).2 = ⟨none, none⟩ :=
  (C2_store_untouched_without_acceptance (PolicyConfig.tokenBucket 1 1)
    2 0 0 ⟨none, none⟩).2 (by decide)

/-- C1 (failing evaluation): the leaky bucket violates the return-range
invariant. On an absent key with capacity 5, period 2 s and 1 unit, the
code returns 9, which is neither `-1` nor in `[0, 5]` (the repository's
own integration test expects 4 here): `fetch_level` subtracts the leak
without flooring the level at 0 first. -/
theorem C1_leaky_bucket_exceeds_capacity :
    (absorb (PolicyConfig.leakyBucket 5 2) 1 0 0 ⟨none, none⟩).1 = Except.ok 9 ∧
      (9 : Int) ≠ -1 ∧ ¬ ((0 : Int) ≤ 9 ∧ (9 : Int) ≤ 5) := by
  exact ⟨by decide, by decide, by decide⟩

/-- C10 (failing evaluation): after construction the leaky bucket's level
can be negative — outside `[0, capacity]` — even though the stored negative
payload itself is clamped: with capacity 10, period 1000 ms, payload "-5"
and TTL 500 ms, `fetch_level` yields level `-5`. -/
theorem C10_leaky_negative_level :
    LeakyBucket.fetch_level 10 1000 ⟨some "-5", some 500⟩ =
      Except.ok (-5, ⟨some "-5", some 500⟩) ∧ ¬ (0 : Int) ≤ -5 := by
  exact ⟨by decide, by decide⟩
/-- C4 (counterexample): a token-bucket key that exists with no TTL is not
used "as-is": with capacity 30, period 60 s and stored value "2",
construction yields 30 tokens (a full refill), not 2. -/
theorem C4_no_ttl_counterexample :
    Bucket.new 30 60 ⟨some "2", none⟩ =
      Except.ok (⟨30, 60000, 30⟩, ⟨some "2", none⟩) ∧ (30 : Int) ≠ 2 := by
  exact ⟨by decide, by decide⟩

theorem fetch_tokens_no_ttl (C T : Int) (st : Store) (s : String) (v : Int)
    (hC : 0 < C) (hCm : C ≤ i64Max) (hT : 0 < T)
    (hv : st.value = some s) (httl : st.ttl = none)
    (hparse : parseI64 s = some v) :
    Bucket.fetch_tokens C T st = Except.ok (C, st) := by
  unfold Bucket.fetch_tokens runPttl runGet pttlVal
  simp only [hv, httl, hparse]
  have hclamp : clampI (-1) 0 T = 0 := by
    simp only [clampI]
    omega
  rw [hclamp]
  have hdiv : Int.tdiv ((T - 0) * C) T = C := by
    rw [sub_zero, Int.tdiv_eq_ediv (by positivity) (by omega),
      Int.mul_ediv_cancel_left _ (by omega)]
  rw [hdiv, wrap64_eq (by simp only [i64Min]; omega) hCm]
  have hmin : min (satAdd (max v 0) C) C = C := by
    have h1 : (0 : Int) ≤ max v 0 := le_max_right v 0
    simp only [satAdd, satI, i64Min, i64Max] at *
    omega
  rw [hmin]

/-- C4 (amended): if the key exists but has no TTL (PTTL replies `-1`), the
token bucket treats it like an absent key: the TTL clamps to 0, the elapsed
time is the whole period, the refill is the full capacity, and the bucket
is constructed with `tokens = capacity` regardless of the stored value. -/
theorem C4_no_ttl_amended (C p : Int) (st : Store) (s : String) (v : Int)
    (hC : 0 < C) (hCm : C ≤ i64Max) (hp : 0 < p) (hpm : p * 1000 ≤ i64Max)
    (hv : st.value = some s) (httl : st.ttl = none)
    (hparse : parseI64 s = some v) :
    Bucket.new C p st = Except.ok (⟨C, p * 1000, C⟩, st) := by
  unfold Bucket.new
  rw [if_neg (by omega), if_neg (by omega),
    checkedMul_eq (by simp only [i64Min]; omega) hpm]
  simp only [fetch_tokens_no_ttl C (p * 1000) st s v hC hCm (by positivity)
    hv httl hparse]

/-- Witness for the amended C4 at a concrete input: capacity 5, period 1 s,
stored value "7" with no TTL constructs a full bucket of 5 tokens. -/
theorem C4_no_ttl_witness :
    Bucket.new 5 1 ⟨some "7", none⟩ =
      Except.ok (⟨5, 1000, 5⟩, ⟨some "7", none⟩) :=
  C4_no_ttl_amended 5 1 ⟨some "7", none⟩ "7" 7 (by norm_num)
    (by norm_num [i64Max]) (by norm_num) (by norm_num [i64Max]) rfl rfl
    (by decide)
theorem align_to_now_fresh (C T now : Int) (hT : 0 < T) :
    SlidingWindow.align_to_now ⟨C, T, now, 0, 0⟩ now = (⟨C, T, now, 0, 0⟩, 0) := by
  unfold SlidingWindow.align_to_now
  have hss : satSub now now = 0 := by
    simp only [satSub, sub_self, satI, i64Min, i64Max]
    omega
  split
  · simp only [hss]
    rw [if_neg (by omega)]
  · simp only [hss]
    rw [if_neg (by omega)]

/-- C5 (counterexample): an undecodable sliding-window payload does not
fail the command: construction succeeds and silently resets the state to a
fresh window `(now_ms, 0, 0)`. -/
theorem C5_corrupt_payload_counterexample :
    SlidingWindow.decode_state "corrupted_data" = none ∧
      SlidingWindow.new 10 60 5000 ⟨some "corrupted_data", some 1000⟩ =
        Except.ok (⟨10, 60000, 5000, 0, 0⟩, ⟨some "corrupted_data", some 1000⟩) := by
  exact ⟨by decide, by decide⟩

/-- C5 (amended): for the sliding window, a stored payload that is not a
valid "start:cur:prev" triple is not a hard error: `apply_state` silently
resets the in-memory state to a fresh window `(now_ms, 0, 0)` and the
command proceeds (the fail-fast decode errors exist only in the token
bucket, leaky bucket and fixed window policies). -/
theorem C5_corrupt_payload_amended (C p now : Int) (st : Store)
    (payload : String) (hC : 0 < C) (hp : 0 < p) (hpm : p * 1000 ≤ i64Max)
    (hv : st.value = some payload)
    (hdec : SlidingWindow.decode_state payload = none) :
    SlidingWindow.new C p now st =
      Except.ok (⟨C, p * 1000, now, 0, 0⟩, st) := by
  unfold SlidingWindow.new
  rw [if_neg (by omega), if_neg (by omega),
    checkedMul_eq (by simp only [i64Min]; omega) hpm]
  unfold SlidingWindow.load_state runGet
  simp only [hv]
  unfold SlidingWindow.apply_state
  simp only [hdec]
  rw [align_to_now_fresh C (p * 1000) now (by positivity)]

/-- Witness for the amended C5 at a concrete input. -/
theorem C5_corrupt_payload_witness :
    SlidingWindow.new 3 2 42 ⟨some "garbage", some 7⟩ =
      Except.ok (⟨3, 2000, 42, 0, 0⟩, ⟨some "garbage", some 7⟩) :=
  C5_corrupt_payload_amended 3 2 42 ⟨some "garbage", some 7⟩ "garbage"
    (by norm_num) (by norm_num) (by norm_num [i64Max]) rfl (by decide)

/-- C6: when at least one full window has passed, `align_to_now` slides the
window: the previous counter takes the old current counter exactly when one
window passed (otherwise both are discarded), the current counter resets,
`current_start` advances by `windows_passed · period` without exceeding
`now_ms`, and the returned elapsed time is recomputed against the advanced
start. -/
theorem C6_align_to_now_slide (s : SlidingWindow) (now : Int)
    (h0 : 0 ≤ s.current_start) (h1 : s.current_start ≤ now)
    (h2 : now ≤ i64Max) (hT : 0 < s.period)
    (hE : s.period ≤ now - s.current_start) :
    SlidingWindow.align_to_now s now =
      ({ s with
          previous_count :=
            if Int.tdiv (now - s.current_start) s.period = 1 then
              s.current_count
            else 0,
          current_count := 0,
          current_start :=
            s.current_start +
              Int.tdiv (now - s.current_start) s.period * s.period },
        now - (s.current_start +
          Int.tdiv (now - s.current_start) s.period * s.period)) ∧
      s.current_start + Int.tdiv (now - s.current_start) s.period * s.period
        ≤ now := by
  simp only [i64Max] at h2
  have hE0 : (0 : Int) ≤ now - s.current_start := by omega
  have htd : Int.tdiv (now - s.current_start) s.period
      = (now - s.current_start) / s.period :=
    Int.tdiv_eq_ediv hE0 (by omega)
  have hwle : (now - s.current_start) / s.period * s.period
      ≤ now - s.current_start :=
    Int.ediv_mul_le (now - s.current_start) (by omega)
  have hwnn : (0 : Int) ≤ (now - s.current_start) / s.period :=
    Int.ediv_nonneg hE0 (by omega)
  have hwpos : (0 : Int) ≤ (now - s.current_start) / s.period * s.period :=
    mul_nonneg hwnn (by omega)
  have hsat1 : satSub now s.current_start = now - s.current_start :=
    satSub_eq (by simp only [i64Min]; omega) (by simp only [i64Max]; omega)
  rw [htd]
  unfold SlidingWindow.align_to_now
  have hcond1 : ¬ (s.current_start > now ∨ s.current_start < 0) := by omega
  rw [if_neg hcond1]
  simp only []
  rw [hsat1]
  rw [if_pos hE]
  rw [htd]
  by_cases hw : (now - s.current_start) / s.period = 1
  · rw [if_pos hw, if_pos hw]
    simp only []
    rw [checkedMul_eq (by simp only [i64Min]; omega) (by simp only [i64Max]; omega)]
    simp only [Option.getD_some]
    rw [satAdd_eq (by simp only [i64Min]; omega) (by simp only [i64Max]; omega)]
    have hcond2 : ¬ (s.current_start +
        (now - s.current_start) / s.period * s.period > now) := by omega
    rw [if_neg hcond2]
    rw [satSub_eq (by simp only [i64Min]; omega) (by simp only [i64Max]; omega)]
    exact ⟨rfl, by omega⟩
  · rw [if_neg hw, if_neg hw]
    simp only []
    rw [checkedMul_eq (by simp only [i64Min]; omega) (by simp only [i64Max]; omega)]
    simp only [Option.getD_some]
    rw [satAdd_eq (by simp only [i64Min]; omega) (by simp only [i64Max]; omega)]
    have hcond2 : ¬ (s.current_start +
        (now - s.current_start) / s.period * s.period > now) := by omega
    rw [if_neg hcond2]
    rw [satSub_eq (by simp only [i64Min]; omega) (by simp only [i64Max]; omega)]
    exact ⟨rfl, by omega⟩

/-- Witness for C6 at a concrete input: one window of 1000 ms passed, so
the current count 3 becomes the previous count and the start advances by
one period. -/
theorem C6_align_to_now_witness :
    SlidingWindow.align_to_now ⟨10, 1000, 0, 3, 7⟩ 1500 =
      (⟨10, 1000, 1000, 0, 3⟩, 500) := by
  have h := C6_align_to_now_slide ⟨10, 1000, 0, 3, 7⟩ 1500 (by norm_num)
    (by norm_num) (by norm_num [i64Max]) (by norm_num) (by norm_num)
  exact h.1.trans (by decide)
theorem fetch_count_fresh (C T : Int) (st : Store) (h : pttlVal st ≤ 1) :
    FixedWindow.fetch_count C T st = Except.ok ((0, false), st) := by
  unfold FixedWindow.fetch_count runPttl
  simp only []
  rw [if_neg (show ¬ pttlVal st > 1 by omega)]
  simp

theorem fetch_count_active (C T : Int) (st : Store) (s : String) (v : Int)
    (h : 1 < pttlVal st) (hv : st.value = some s)
    (hparse : parseI64 s = some v) :
    FixedWindow.fetch_count C T st = Except.ok ((max v 0, true), st) := by
  unfold FixedWindow.fetch_count runPttl runGet
  simp only []
  rw [if_pos (show pttlVal st > 1 by omega)]
  simp [hv, hparse]

/-- C7: fixed-window construction treats a TTL at or below 1 ms (or an
absent key) as a fresh window with count 0; an accepted execute in a fresh
window persists via `PSETEX` with the full period, while in an active
window it persists via `SET … KEEPTTL` (existing TTL preserved), and both
return `capacity - count`. -/
theorem C7_fixed_window_persistence (C p u : Int) (st : Store)
    (hC : 0 < C) (hCm : C ≤ i64Max) (hp : 0 < p) (hpm : p * 1000 ≤ i64Max)
    (hu : 0 < u) :
    (pttlVal st ≤ 1 →
      FixedWindow.new C p st = Except.ok (⟨C, p * 1000, 0, false⟩, st)) ∧
    (u ≤ C →
      FixedWindow.consume ⟨C, p * 1000, 0, false⟩ u st =
        Except.ok (C - u, ⟨some (intToString u), some (p * 1000)⟩)) ∧
    (∀ s v, 1 < pttlVal st → st.value = some s → parseI64 s = some v →
      FixedWindow.new C p st =
        Except.ok (⟨C, p * 1000, max v 0, true⟩, st) ∧
      (max v 0 + u ≤ C →
        FixedWindow.consume ⟨C, p * 1000, max v 0, true⟩ u st =
          Except.ok (C - (max v 0 + u),
            ⟨some (intToString (max v 0 + u)), st.ttl⟩))) := by
  simp only [i64Max] at hCm
  refine ⟨fun h1 => ?_, fun h2 => ?_, fun s v h3 h4 h5 => ⟨?_, fun h6 => ?_⟩⟩
  · unfold FixedWindow.new
    rw [if_neg (by omega), if_neg (by omega),
      checkedMul_eq (by simp only [i64Min]; omega) hpm]
    simp only [fetch_count_fresh C (p * 1000) st h1]
  · unfold FixedWindow.consume
    rw [if_neg (by omega)]
    have hadd : satAdd (0 : Int) u = u := by
      rw [satAdd_eq (by simp only [i64Min]; omega)
        (by simp only [i64Max]; omega), zero_add]
    simp only []
    rw [hadd]
    rw [if_neg (by omega)]
    rw [min_eq_left h2]
    unfold FixedWindow.persist_count runPsetex
    simp
  · unfold FixedWindow.new
    rw [if_neg (by omega), if_neg (by omega),
      checkedMul_eq (by simp only [i64Min]; omega) hpm]
    simp only [fetch_count_active C (p * 1000) st s v h3 h4 h5]
  · unfold FixedWindow.consume
    rw [if_neg (by omega)]
    have hmax0 : (0 : Int) ≤ max v 0 := le_max_right v 0
    have hadd : satAdd (max v 0) u = max v 0 + u :=
      satAdd_eq (by simp only [i64Min]; omega) (by simp only [i64Max]; omega)
    simp only []
    rw [hadd]
    rw [if_neg (by omega)]
    rw [min_eq_left h6]
    unfold FixedWindow.persist_count runSetKeepttl
    simp

/-- Witness for C7 at concrete inputs: a fresh store (capacity 3, period
1 s) and an active window holding count 2 with 500 ms left. -/
theorem C7_fixed_window_witness :
    FixedWindow.new 3 1 ⟨none, none⟩ =
        Except.ok (⟨3, 1000, 0, false⟩, ⟨none, none⟩) ∧
      FixedWindow.consume ⟨3, 1000, 0, false⟩ 1 ⟨none, none⟩ =
        Except.ok (2, ⟨some "1", some 1000⟩) ∧
      FixedWindow.new 3 1 ⟨some "2", some 500⟩ =
        Except.ok (⟨3, 1000, 2, true⟩, ⟨some "2", some 500⟩) ∧
      FixedWindow.consume ⟨3, 1000, 2, true⟩ 1 ⟨some "2", some 500⟩ =
        Except.ok (0, ⟨some "3", some 500⟩) := by
  have hf := C7_fixed_window_persistence 3 1 1 ⟨none, none⟩ (by norm_num)
    (by norm_num [i64Max]) (by norm_num) (by norm_num [i64Max]) (by norm_num)
  have ha := C7_fixed_window_persistence 3 1 1 ⟨some "2", some 500⟩
    (by norm_num) (by norm_num [i64Max]) (by norm_num) (by norm_num [i64Max])
    (by norm_num)
  refine ⟨?_, ?_, ?_, ?_⟩
  · exact (hf.1 (by decide)).trans (by decide)
  · exact (hf.2.1 (by norm_num)).trans (by decide)
  · exact ((ha.2.2 "2" 2 (by decide) rfl (by decide)).1).trans (by decide)
  · exact (((ha.2.2 "2" 2 (by decide) rfl (by decide)).2) (by decide)).trans
      (by decide)

/-- C8 (counterexample): a 6-argument call whose 5th argument is not
"ALGORITHM" does not always fail with wrong-arity: when the 6th argument
is the literal "ALGORITHM", the parser reports the algorithm-value-missing
error instead. -/
theorem C8_six_args_counterexample :
    parse_command_args ["SHIELD.absorb", "k", "10", "60", "5", "ALGORITHM"] =
        Except.error Err.algorithmValueMissing ∧
      Err.algorithmValueMissing ≠ Err.wrongArity := by
  exact ⟨by decide, by decide⟩

/-- C8 (amended): a 6-argument invocation whose 5th argument (index 4) is
not the literal "ALGORITHM" (case-insensitive) always fails: with the
algorithm-value-missing error when the 6th argument (index 5) is the
literal "ALGORITHM" (case-insensitive), and with a wrong-arity error
otherwise. -/
theorem C8_six_args_amended (a0 a1 a2 a3 a4 a5 : String)
    (h : eq_ignore_ascii_case a4 "ALGORITHM" = false) :
    parse_command_args [a0, a1, a2, a3, a4, a5] =
      Except.error
        (if eq_ignore_ascii_case a5 "ALGORITHM" then Err.algorithmValueMissing
         else Err.wrongArity) := by
  unfold parse_command_args getArg
  simp only [List.length_cons, List.length_nil]
  norm_num
  rw [h]
  by_cases h5 : eq_ignore_ascii_case a5 "ALGORITHM" = true
  · simp [h5]
  · simp only [Bool.not_eq_true] at h5
    simp [h5]

/-- Witness for the amended C8 at concrete inputs: index 4 is "7" (not the
flag), and the outcome depends on index 5 being the flag (case-insensitive)
or not. -/
theorem C8_six_args_witness :
    parse_command_args ["SHIELD.absorb", "user1", "10", "60", "7", "AlGoRiThM"] =
        Except.error Err.algorithmValueMissing ∧
      parse_command_args ["SHIELD.absorb", "user1", "10", "60", "7", "extra"] =
        Except.error Err.wrongArity := by
  constructor
  · exact (C8_six_args_amended "SHIELD.absorb" "user1" "10" "60" "7"
      "AlGoRiThM" (by decide)).trans (by decide)
  · exact (C8_six_args_amended "SHIELD.absorb" "user1" "10" "60" "7"
      "extra" (by decide)).trans (by decide)

/-- Spec-side formula for the token balance computed at construction,
written from the claim's words (to be compared with the embedded
`Bucket.fetch_tokens`): `tokens = min(C, stored + floor(elapsed·C/T_ms))`
with a saturating add, `elapsed = T_ms - ttl` for the PTTL reply clamped
into `[0, T_ms]`, and `stored` the persisted integer (0 when the key or
value is absent, clamped at 0). -/
def specTokens (C Tms : Int) (st : Store) : Int :=
  let ttl := max 0 (min (pttlVal st) Tms)
  let elapsed := Tms - ttl
  let refill := elapsed * C / Tms
  let stored := max ((st.value.bind parseI64).getD 0) 0
  min C (satAdd stored refill)

theorem clampI_lb (x T : Int) (_hT : 0 < T) : 0 ≤ clampI x 0 T :=
  le_max_left 0 (min x T)

theorem clampI_ub (x T : Int) (hT : 0 < T) : clampI x 0 T ≤ T :=
  max_le (le_of_lt hT) (min_le_right x T)

theorem refill_bounds (C T x : Int) (hC : 0 < C) (hT : 0 < T) :
    0 ≤ (T - clampI x 0 T) * C / T ∧ (T - clampI x 0 T) * C / T ≤ C := by
  have h1 := clampI_lb x T hT
  have h2 := clampI_ub x T hT
  constructor
  · exact Int.ediv_nonneg (mul_nonneg (by omega) (by omega)) (by omega)
  · have hmono : (T - clampI x 0 T) * C / T ≤ T * C / T :=
      Int.ediv_le_ediv hT (by nlinarith)
    rwa [Int.mul_ediv_cancel_left C (by omega)] at hmono

theorem refill_wrap (C T x : Int) (hC : 0 < C) (hCm : C ≤ i64Max)
    (hT : 0 < T) :
    wrap64 (Int.tdiv ((T - clampI x 0 T) * C) T) =
      (T - clampI x 0 T) * C / T := by
  have h1 := clampI_lb x T hT
  have h2 := clampI_ub x T hT
  have hb := refill_bounds C T x hC hT
  rw [Int.tdiv_eq_ediv (mul_nonneg (by omega) (by omega)) (by omega)]
  exact wrap64_eq (by simp only [i64Min, i64Max] at *; omega)
    (by simp only [i64Min, i64Max] at *; omega)

theorem fetch_tokens_spec (C T : Int) (st : Store)
    (hC : 0 < C) (hCm : C ≤ i64Max) (hT : 0 < T)
    (hparse : ∀ s, st.value = some s → (parseI64 s).isSome) :
    Bucket.fetch_tokens C T st = Except.ok (specTokens C T st, st) := by
  unfold Bucket.fetch_tokens runPttl runGet specTokens clampI
  cases hv : st.value with
  | none =>
    simp only [hv, Option.none_bind, Option.getD_none]
    have hw := refill_wrap C T (pttlVal st) hC hCm hT
    unfold clampI at hw
    rw [hw, min_comm]
    simp only [max_self]
  | some s =>
    obtain ⟨v, hpv⟩ := Option.isSome_iff_exists.mp (hparse s hv)
    simp only [hv, hpv, Option.some_bind, Option.getD_some]
    have hw := refill_wrap C T (pttlVal st) hC hCm hT
    unfold clampI at hw
    rw [hw, min_comm]

/-- C3: token-bucket construction computes exactly
`tokens = min(C, stored + floor(elapsed·C/T_ms))` with saturating add and
an exact (128-bit wide) intermediate product, where
`elapsed = T_ms - clamp(ttl, 0, T_ms)` and `stored` is the persisted
integer clamped at 0 (0 when absent); an accepted `execute(units)`
subtracts the units, persists the balance via `PSETEX` with a fresh TTL of
`T_ms`, and returns the new balance. -/
theorem C3_token_bucket_refinement (C p : Int) (st : Store)
    (hC : 0 < C) (hCm : C ≤ i64Max) (hp : 0 < p) (hpm : p * 1000 ≤ i64Max)
    (hparse : ∀ s, st.value = some s → (parseI64 s).isSome) :
    Bucket.new C p st =
      Except.ok (⟨C, p * 1000, specTokens C (p * 1000) st⟩, st) ∧
    ∀ u, 0 < u → u ≤ specTokens C (p * 1000) st →
      Bucket.pour ⟨C, p * 1000, specTokens C (p * 1000) st⟩ u st =
        Except.ok (specTokens C (p * 1000) st - u,
          ⟨some (intToString (specTokens C (p * 1000) st - u)),
            some (p * 1000)⟩) := by
  constructor
  · unfold Bucket.new
    rw [if_neg (by omega), if_neg (by omega),
      checkedMul_eq (by simp only [i64Min]; omega) hpm]
    simp only [fetch_tokens_spec C (p * 1000) st hC hCm (by positivity) hparse]
  · intro u hu hle
    unfold Bucket.pour runPsetex
    rw [if_neg (by omega)]
    rw [if_neg (by simp only []; omega)]

/-- Witness for C3 at a concrete input: capacity 30, period 60 s, stored
"25" with 30 s left, so half the period has elapsed and 15 tokens refill
(saturating at the capacity 30); pouring 1 unit leaves 29 and persists
"29" with a fresh TTL of 60000 ms. -/
theorem C3_token_bucket_witness :
    Bucket.new 30 60 ⟨some "25", some 30000⟩ =
        Except.ok (⟨30, 60000, 30⟩, ⟨some "25", some 30000⟩) ∧
      Bucket.pour ⟨30, 60000, 30⟩ 1 ⟨some "25", some 30000⟩ =
        Except.ok (29, ⟨some "29", some 60000⟩) := by
  have h := C3_token_bucket_refinement 30 60 ⟨some "25", some 30000⟩
    (by norm_num) (by norm_num [i64Max]) (by norm_num) (by norm_num [i64Max])
    (by intro s hs; injection hs with h1; subst h1; decide)
  constructor
  · exact h.1.trans (by decide)
  · exact (h.2 1 (by norm_num) (by decide)).trans (by decide)

/-! ### Round-trip of the sliding-window state encoding -/

theorem digitVal_digitChar (d : Nat) (hd : d < 10) :
    digitVal (digitChar d) = some d := by
  interval_cases d <;> decide

theorem digitChar_ne_colon (d : Nat) (hd : d < 10) : digitChar d ≠ ':' := by
  interval_cases d <;> decide

theorem digitChar_ne_minus (d : Nat) (hd : d < 10) : digitChar d ≠ '-' := by
  interval_cases d <;> decide

theorem digitChar_ne_plus (d : Nat) (hd : d < 10) : digitChar d ≠ '+' := by
  interval_cases d <;> decide

theorem parseDigitsGo_cons_digit (a d : Nat) (hd : d < 10) (cs : List Char) :
    parseDigitsGo a (digitChar d :: cs) = parseDigitsGo (a * 10 + d) cs := by
  simp only [parseDigitsGo, digitVal_digitChar d hd]

/-- Mirror of `natToDigitsAux` computing the power of ten that shifts an
accumulator past the digits of `n`. -/
def tenPowAux : Nat → Nat → Nat
  | 0, _ => 1
  | fuel + 1, n => if n / 10 = 0 then 10 else 10 * tenPowAux fuel (n / 10)

theorem parse_natToDigitsAux (fuel : Nat) :
    ∀ n acc a, n < fuel →
      parseDigitsGo a (natToDigitsAux fuel n acc) =
        parseDigitsGo (a * tenPowAux fuel n + n) acc := by
  induction fuel with
  | zero => intro n acc a h; omega
  | succ f ih =>
    intro n acc a h
    simp only [natToDigitsAux, tenPowAux]
    by_cases h10 : n / 10 = 0
    · rw [if_pos h10, if_pos h10]
      rw [parseDigitsGo_cons_digit a (n % 10) (Nat.mod_lt n (by norm_num))]
      rw [Nat.mod_eq_of_lt (by omega)]
    · rw [if_neg h10, if_neg h10]
      rw [ih (n / 10) _ a (by omega)]
      rw [parseDigitsGo_cons_digit _ (n % 10) (Nat.mod_lt n (by norm_num))]
      congr 1
      have hm := Nat.div_add_mod n 10
      ring_nf
      omega

theorem natToDigitsAux_shape (fuel : Nat) :
    ∀ n acc, n < fuel →
      ∃ d tl, d < 10 ∧ natToDigitsAux fuel n acc = digitChar d :: tl := by
  induction fuel with
  | zero => intro n acc h; omega
  | succ f ih =>
    intro n acc h
    simp only [natToDigitsAux]
    by_cases h10 : n / 10 = 0
    · rw [if_pos h10]
      exact ⟨n % 10, acc, Nat.mod_lt n (by norm_num), rfl⟩
    · rw [if_neg h10]
      exact ih (n / 10) _ (by omega)

theorem natToDigitsAux_digits (fuel : Nat) :
    ∀ n acc, (∀ c ∈ acc, ∃ d, d < 10 ∧ c = digitChar d) →
      ∀ c ∈ natToDigitsAux fuel n acc, ∃ d, d < 10 ∧ c = digitChar d := by
  induction fuel with
  | zero => intro n acc hacc; exact hacc
  | succ f ih =>
    intro n acc hacc c
    simp only [natToDigitsAux]
    by_cases h10 : n / 10 = 0
    · rw [if_pos h10]
      intro hc
      rcases List.mem_cons.mp hc with hc | hc
      · exact ⟨n % 10, Nat.mod_lt n (by norm_num), hc⟩
      · exact hacc c hc
    · rw [if_neg h10]
      refine ih (n / 10) _ (fun c' hc' => ?_) c
      rcases List.mem_cons.mp hc' with hc' | hc'
      · exact ⟨n % 10, Nat.mod_lt n (by norm_num), hc'⟩
      · exact hacc c' hc'

theorem natToDigits_no_colon (n : Nat) : ∀ c ∈ natToDigits n, c ≠ ':' := by
  intro c hc
  obtain ⟨d, hd, rfl⟩ :=
    natToDigitsAux_digits (n + 1) n [] (by simp) c hc
  exact digitChar_ne_colon d hd

theorem splitAtColon_append (xs ys : List Char) (h : ∀ c ∈ xs, c ≠ ':') :
    splitAtColon (xs ++ ':' :: ys) = some (xs, ys) := by
  induction xs with
  | nil => simp [splitAtColon]
  | cons c cs ih =>
    have hc : c ≠ ':' := h c (List.mem_cons_self c cs)
    simp only [List.cons_append, splitAtColon, if_neg hc, List.append_eq]
    rw [ih (fun c' hc' => h c' (List.mem_cons_of_mem c hc'))]
    rfl

theorem parseI64Chars_natToDigits (n : Nat) (hn : (n : Int) ≤ i64Max) :
    parseI64Chars (natToDigits n) = some (n : Int) := by
  obtain ⟨d, tl, hd, hshape⟩ :=
    natToDigitsAux_shape (n + 1) n [] (Nat.lt_succ_self n)
  have h1 : parseDigitsGo 0 (natToDigitsAux (n + 1) n []) = some n := by
    rw [parse_natToDigitsAux (n + 1) n [] 0 (Nat.lt_succ_self n)]
    simp [parseDigitsGo]
  unfold natToDigits
  rw [hshape]
  unfold parseI64Chars
  simp only []
  rw [if_neg (fun he => digitChar_ne_minus d hd he),
    if_neg (fun he => digitChar_ne_plus d hd he)]
  have h2 : parseDigits (digitChar d :: tl) = some n := by
    unfold parseDigits
    simp only []
    rw [← hshape, h1]
  rw [h2]
  simp [hn]

/-- C9: for every sliding-window state whose three fields are non-negative
`i64` values, decoding the encoded "start:cur:prev" payload restores the
exact field values (decode is a left inverse of encode). -/
theorem C9_encode_decode_roundtrip (s : SlidingWindow)
    (h1 : 0 ≤ s.current_start) (h2 : s.current_start ≤ i64Max)
    (h3 : 0 ≤ s.current_count) (h4 : s.current_count ≤ i64Max)
    (h5 : 0 ≤ s.previous_count) (h6 : s.previous_count ≤ i64Max) :
    SlidingWindow.decode_state (SlidingWindow.encode_state s) =
      some (s.current_start, s.current_count, s.previous_count) := by
  have ha := parseI64Chars_natToDigits s.current_start.toNat
    (by rw [Int.toNat_of_nonneg h1]; exact h2)
  have hb := parseI64Chars_natToDigits s.current_count.toNat
    (by rw [Int.toNat_of_nonneg h3]; exact h4)
  have hc := parseI64Chars_natToDigits s.previous_count.toNat
    (by rw [Int.toNat_of_nonneg h5]; exact h6)
  rw [Int.toNat_of_nonneg h1] at ha
  rw [Int.toNat_of_nonneg h3] at hb
  rw [Int.toNat_of_nonneg h5] at hc
  unfold SlidingWindow.encode_state SlidingWindow.decode_state intToDigits
  rw [if_neg (by omega), if_neg (by omega), if_neg (by omega)]
  simp only []
  rw [splitAtColon_append _ _ (natToDigits_no_colon _)]
  simp only []
  rw [splitAtColon_append _ _ (natToDigits_no_colon _)]
  simp only []
  rw [ha]
  simp only []
  rw [hb]
  simp only []
  rw [hc]

/-- Witness for C9 at a concrete state: encoding `(123, 4, 0)` with
capacity 4 and period 2000 ms and decoding it returns the same triple. -/
theorem C9_encode_decode_witness :
    SlidingWindow.decode_state (SlidingWindow.encode_state ⟨4, 2000, 123, 4, 0⟩) =
      some (123, 4, 0) :=
  C9_encode_decode_roundtrip ⟨4, 2000, 123, 4, 0⟩ (by norm_num)
    (by norm_num [i64Max]) (by norm_num) (by norm_num [i64Max]) (by norm_num)
    (by norm_num [i64Max])
